import Mathlib

/-!
Verification of `cam_test_dir/yolo_server.py`: a single-endpoint HTTP
service that decodes an uploaded image, runs a pretrained YOLOv5 detector
on it, and reshapes the detector's first result set into a JSON object
`{"detections": [...]}`.

Shallow embedding choices:
* Image bytes are `List Nat`; the decoded image type `Image` is abstract
  (the PIL decoder is an external collaborator `decode : List Nat → Option Image`,
  `none` standing for the uncaught decoding error).
* A raw detection (one row of `results.xyxy[0]`) is a 6-tuple of numbers;
  Python floats are embedded as rationals (the handler only copies them,
  it performs no arithmetic on them).
* The detector handle is a pair of its two observable features used by the
  handler: `xyxy` (the list of result sets returned by `model(image)`) and
  `names` (the class-index-to-name table, `none` standing for the uncaught
  `KeyError` on an invalid index).
* The handler returns `Option Response`: `none` stands for any uncaught
  exception propagating to the framework, `some` for the HTTP 200 body.
-/

/-- Python `int()` applied to a float/rational: truncation toward zero.
Both integer divisions below have nonnegative operands, so every
division convention agrees with truncation. -/
def pyInt (q : ℚ) : ℤ :=
  if 0 ≤ q then q.num / (q.den : ℤ) else -((-q.num) / (q.den : ℤ))

/-- One row of `results.xyxy[0]`: the raw 6-tuple
`(x_min, y_min, x_max, y_max, confidence, class_id)` after `.tolist()`. -/
structure RawDetection where
  x_min : ℚ
  y_min : ℚ
  x_max : ℚ
  y_max : ℚ
  confidence : ℚ
  class_id : ℚ
deriving DecidableEq

/-- The Detection record appended to `detections` by the handler. -/
structure Detection where
  class_id : ℤ
  class_name : String
  confidence : ℚ
  bbox : List ℚ
deriving DecidableEq

/-- The returned JSON object `{"detections": [...]}`. -/
structure Response where
  detections : List Detection
deriving DecidableEq

/-- The loaded detector handle, by its two features the handler reads:
`model(image).xyxy` (one result set per batched image) and `model.names`. -/
structure YoloModel (Image : Type) where
  xyxy : Image → List (List RawDetection)
  names : ℤ → Option String

/-- Body of one loop iteration: build the record for one raw detection.
`none` is the uncaught `KeyError` from `model.names[int(class_id)]`. -/
def mapDetection {Image : Type} (m : YoloModel Image) (r : RawDetection) :
    Option Detection :=
  match m.names (pyInt r.class_id) with
  | none => none
  | some nm =>
      some { class_id := pyInt r.class_id
             class_name := nm
             confidence := r.confidence
             bbox := [r.x_min, r.y_min, r.x_max, r.y_max] }

/-- The `for detection in results.xyxy[0]` loop: appends one record per raw
detection in order, aborting (uncaught exception) if any lookup fails. -/
def mapDetections {Image : Type} (m : YoloModel Image) :
    List RawDetection → Option (List Detection)
  | [] => some []
  | r :: rs =>
      match mapDetection m r with
      | none => none
      | some d =>
          match mapDetections m rs with
          | none => none
          | some ds => some (d :: ds)

/-- The request handler `detect_objects`: read the uploaded bytes, decode
them (`Image.open`), run the model, map `results.xyxy[0]` into records, and
return `{"detections": detections}`. `head?` embeds the `[0]` indexing of
the list of result sets. -/
def detect_objects {Image : Type} (decode : List Nat → Option Image)
    (m : YoloModel Image) (image_data : List Nat) : Option Response :=
  match decode image_data with
  | none => none
  | some image =>
      match (m.xyxy image).head? with
      | none => none
      | some raws =>
          match mapDetections m raws with
          | none => none
          | some ds => some { detections := ds }

/-- Process state: the module-level `model` handle loaded once at startup,
plus an explicit external store (disk) component that the source never
touches, present so that frame properties are statable. -/
structure ProcState (Image : Type) where
  model : YoloModel Image
  disk : List (String × List Nat)

/-- One request served by the process: the handler reads the global model
handle and produces the response; no other state is mentioned by the
source, hence none changes. -/
def handle_request {Image : Type} (decode : List Nat → Option Image)
    (st : ProcState Image) (image_data : List Nat) :
    ProcState Image × Option Response :=
  (st, detect_objects decode st.model image_data)

/-- The process serving a sequence of requests, threading the state. -/
def serve {Image : Type} (decode : List Nat → Option Image) :
    ProcState Image → List (List Nat) → ProcState Image × List (Option Response)
  | st, [] => (st, [])
  | st, r :: rs =>
      match handle_request decode st r with
      | (st1, resp) =>
          match serve decode st1 rs with
          | (st2, resps) => (st2, resp :: resps)

/-- The contract the external detector's raw output is specified to meet:
confidence in [0,1] and an ordered box. -/
def RawValid (r : RawDetection) : Prop :=
  0 ≤ r.confidence ∧ r.confidence ≤ 1 ∧ r.x_min ≤ r.x_max ∧ r.y_min ≤ r.y_max

instance (r : RawDetection) : Decidable (RawValid r) := by
  unfold RawValid; exact inferInstance

/-- Concrete decoder for witnesses: empty uploads are undecodable, others
decode to their length. -/
def exDecode : List Nat → Option Nat :=
  fun data => if data = [] then none else some data.length

/-- Concrete class table for witnesses: only index 16 is a valid key. -/
def exNames : ℤ → Option String :=
  fun k => if k = 16 then some "dog" else none

/-- Concrete raw detection for witnesses. -/
def exRaw : RawDetection :=
  { x_min := 0, y_min := 1, x_max := 10, y_max := 12
    confidence := 1, class_id := 16 }

/-- Concrete model for witnesses: one detection of class 16. -/
def exModel : YoloModel Nat :=
  { xyxy := fun _ => [[exRaw]], names := exNames }

/-- The record the handler builds from `exRaw`. -/
def exDet : Detection :=
  { class_id := 16, class_name := "dog", confidence := 1
    bbox := [0, 1, 10, 12] }

/-- Raw detection whose class index is not a key of `exNames`. -/
def exRawBad : RawDetection :=
  { x_min := 0, y_min := 0, x_max := 1, y_max := 1
    confidence := 1, class_id := 99 }

/-- Model for witnesses whose single detection has an invalid class index. -/
def exModelBad : YoloModel Nat :=
  { xyxy := fun _ => [[exRawBad]], names := exNames }

/-- Model for witnesses whose first result set is empty. -/
def exModelEmpty : YoloModel Nat :=
  { xyxy := fun _ => [[]], names := exNames }

/-- A second decoder that agrees with `exDecode` on the input `[5]`. -/
def exDecode2 : List Nat → Option Nat :=
  fun data => if 0 < data.length then some data.length else none

/-! ### Helper lemmas -/

theorem head?_mem {α : Type} {l : List α} {a : α} (h : l.head? = some a) :
    a ∈ l := by
  cases l with
  | nil => simp at h
  | cons b t =>
      simp only [List.head?_cons, Option.some.injEq] at h
      subst h
      exact List.mem_cons_self b t

theorem mapDetection_eq_some {Image : Type} {m : YoloModel Image}
    {r : RawDetection} {d : Detection} (h : mapDetection m r = some d) :
    m.names (pyInt r.class_id) = some d.class_name ∧
      d = { class_id := pyInt r.class_id
            class_name := d.class_name
            confidence := r.confidence
            bbox := [r.x_min, r.y_min, r.x_max, r.y_max] } := by
  unfold mapDetection at h
  cases hn : m.names (pyInt r.class_id) with
  | none => rw [hn] at h; simp at h
  | some nm =>
      rw [hn] at h
      simp only [Option.some.injEq] at h
      subst h
      exact ⟨rfl, rfl⟩

theorem mapDetections_some_length {Image : Type} {m : YoloModel Image} :
    ∀ {l : List RawDetection} {l' : List Detection},
      mapDetections m l = some l' → l'.length = l.length := by
  intro l
  induction l with
  | nil =>
      intro l' h
      simp only [mapDetections, Option.some.injEq] at h
      subst h
      rfl
  | cons r rs ih =>
      intro l' h
      unfold mapDetections at h
      cases hd : mapDetection m r with
      | none => rw [hd] at h; simp at h
      | some d =>
          rw [hd] at h
          cases hs : mapDetections m rs with
          | none => rw [hs] at h; simp at h
          | some ds =>
              rw [hs] at h
              simp only [Option.some.injEq] at h
              subst h
              simp [ih hs]

theorem mapDetections_some_get {Image : Type} {m : YoloModel Image} :
    ∀ {l : List RawDetection} {l' : List Detection},
      mapDetections m l = some l' →
      ∀ i (hi : i < l.length) (hi' : i < l'.length),
        mapDetection m (l.get ⟨i, hi⟩) = some (l'.get ⟨i, hi'⟩) := by
  intro l
  induction l with
  | nil => intro l' _ i hi _; exact absurd hi (by simp)
  | cons r rs ih =>
      intro l' h i hi hi'
      unfold mapDetections at h
      cases hd : mapDetection m r with
      | none => rw [hd] at h; simp at h
      | some d =>
          rw [hd] at h
          cases hs : mapDetections m rs with
          | none => rw [hs] at h; simp at h
          | some ds =>
              rw [hs] at h
              simp only [Option.some.injEq] at h
              subst h
              cases i with
              | zero => simpa using hd
              | succ j =>
                  exact ih hs j (Nat.lt_of_succ_lt_succ hi)
                    (Nat.lt_of_succ_lt_succ hi')

theorem mapDetections_none_of_mem {Image : Type} {m : YoloModel Image}
    {r : RawDetection} :
    ∀ {l : List RawDetection}, r ∈ l → mapDetection m r = none →
      mapDetections m l = none := by
  intro l
  induction l with
  | nil => intro h; exact absurd h (by simp)
  | cons a t ih =>
      intro hmem hnone
      unfold mapDetections
      rcases List.mem_cons.mp hmem with heq | htail
      · subst heq
        rw [hnone]
      · cases ha : mapDetection m a with
        | none => rfl
        | some d => rw [ih htail hnone]

theorem mapDetections_mem_rev {Image : Type} {m : YoloModel Image}
    {d : Detection} :
    ∀ {l : List RawDetection} {l' : List Detection},
      mapDetections m l = some l' → d ∈ l' →
      ∃ r, r ∈ l ∧ mapDetection m r = some d := by
  intro l
  induction l with
  | nil =>
      intro l' h hd
      simp only [mapDetections, Option.some.injEq] at h
      subst h
      exact absurd hd (by simp)
  | cons a t ih =>
      intro l' h hd
      unfold mapDetections at h
      cases ha : mapDetection m a with
      | none => rw [ha] at h; simp at h
      | some d0 =>
          rw [ha] at h
          cases hs : mapDetections m t with
          | none => rw [hs] at h; simp at h
          | some ds =>
              rw [hs] at h
              simp only [Option.some.injEq] at h
              subst h
              rcases List.mem_cons.mp hd with heq | htail
              · subst heq
                exact ⟨a, List.mem_cons_self a t, ha⟩
              · rcases ih hs htail with ⟨r, hrmem, hr⟩
                exact ⟨r, List.mem_cons_of_mem a hrmem, hr⟩

theorem mapDetection_congr {Image : Type} {m₁ m₂ : YoloModel Image}
    (hn : ∀ k, m₁.names k = m₂.names k) (r : RawDetection) :
    mapDetection m₁ r = mapDetection m₂ r := by
  unfold mapDetection
  rw [hn]

theorem mapDetections_congr {Image : Type} {m₁ m₂ : YoloModel Image}
    (hn : ∀ k, m₁.names k = m₂.names k) :
    ∀ l, mapDetections m₁ l = mapDetections m₂ l := by
  intro l
  induction l with
  | nil => rfl
  | cons r rs ih =>
      unfold mapDetections
      rw [mapDetection_congr hn, ih]

theorem detect_objects_some {Image : Type} {decode : List Nat → Option Image}
    {m : YoloModel Image} {data : List Nat} {resp : Response}
    (h : detect_objects decode m data = some resp) :
    ∃ image raws, decode data = some image ∧
      (m.xyxy image).head? = some raws ∧
      mapDetections m raws = some resp.detections := by
  unfold detect_objects at h
  cases hdec : decode data with
  | none => simp [hdec] at h
  | some image =>
      simp only [hdec] at h
      cases hh : (m.xyxy image).head? with
      | none => simp [hh] at h
      | some raws =>
          simp only [hh] at h
          cases hmd : mapDetections m raws with
          | none => simp [hmd] at h
          | some ds =>
              simp only [hmd, Option.some.injEq] at h
              subst h
              exact ⟨image, raws, rfl, by simpa using hh, by simpa using hmd⟩

theorem detect_objects_eq {Image : Type} {decode : List Nat → Option Image}
    {m : YoloModel Image} {data : List Nat} {image : Image}
    {raws : List RawDetection} (hdec : decode data = some image)
    (hh : (m.xyxy image).head? = some raws) :
    detect_objects decode m data =
      (mapDetections m raws).map (fun ds => { detections := ds }) := by
  unfold detect_objects
  simp only [hdec, hh]
  cases hmd : mapDetections m raws <;> simp [hmd]

theorem serve_fst {Image : Type} (decode : List Nat → Option Image)
    (st : ProcState Image) :
    ∀ reqs, (serve decode st reqs).1 = st := by
  intro reqs
  induction reqs generalizing st with
  | nil => rfl
  | cons r rs ih => simpa [serve, handle_request] using ih st

theorem serve_snd {Image : Type} (decode : List Nat → Option Image)
    (st : ProcState Image) :
    ∀ reqs, (serve decode st reqs).2 =
      reqs.map (fun r => detect_objects decode st.model r) := by
  intro reqs
  induction reqs generalizing st with
  | nil => rfl
  | cons r rs ih => simpa [serve, handle_request] using ih st

/-! ### Claim theorems -/

/-- Claim C1: every element of the returned `detections` array is the record
built from the corresponding raw 6-tuple of the model's first result set:
`class_id` is the integer conversion of the raw `class_id`, `class_name` is
the model's table looked up at that same integer, `confidence` and `bbox`
are copied; in particular `class_name` always matches the model's lookup
for the `class_id` returned in the same record. -/
theorem C1_record_shape {Image : Type} (decode : List Nat → Option Image)
    (m : YoloModel Image) (data : List Nat) (resp : Response)
    (h : detect_objects decode m data = some resp) :
    ∃ image raws, decode data = some image ∧
      (m.xyxy image).head? = some raws ∧
      resp.detections.length = raws.length ∧
      ∀ i (hi : i < raws.length) (hi' : i < resp.detections.length),
        ∃ nm, m.names (pyInt (raws.get ⟨i, hi⟩).class_id) = some nm ∧
          resp.detections.get ⟨i, hi'⟩ =
            { class_id := pyInt (raws.get ⟨i, hi⟩).class_id
              class_name := nm
              confidence := (raws.get ⟨i, hi⟩).confidence
              bbox := [(raws.get ⟨i, hi⟩).x_min, (raws.get ⟨i, hi⟩).y_min,
                       (raws.get ⟨i, hi⟩).x_max, (raws.get ⟨i, hi⟩).y_max] } := by
  obtain ⟨image, raws, hdec, hh, hmd⟩ := detect_objects_some h
  refine ⟨image, raws, hdec, hh, mapDetections_some_length hmd, ?_⟩
  intro i hi hi'
  have hg := mapDetections_some_get hmd i hi hi'
  obtain ⟨hn, hrec⟩ := mapDetection_eq_some hg
  exact ⟨(resp.detections.get ⟨i, hi'⟩).class_name, hn, hrec⟩

/-- Claim C2: the handler reads exactly the model's first result set and
produces one output record per raw detection, in the same order, with no
filtering and no cap: the output length equals the raw length and the
element at each index is the record mapped from the raw detection at the
same index. -/
theorem C2_one_to_one_in_order {Image : Type} (decode : List Nat → Option Image)
    (m : YoloModel Image) (data : List Nat) (resp : Response)
    (h : detect_objects decode m data = some resp) :
    ∃ image raws, decode data = some image ∧
      (m.xyxy image).head? = some raws ∧
      resp.detections.length = raws.length ∧
      ∀ i (hi : i < raws.length) (hi' : i < resp.detections.length),
        mapDetection m (raws.get ⟨i, hi⟩) = some (resp.detections.get ⟨i, hi'⟩) := by
  obtain ⟨image, raws, hdec, hh, hmd⟩ := detect_objects_some h
  exact ⟨image, raws, hdec, hh, mapDetections_some_length hmd,
    fun i hi hi' => mapDetections_some_get hmd i hi hi'⟩

/-- Claim C3: when the image decodes and the model's first result set is
empty, the handler returns exactly the object with an empty `detections`
array. -/
theorem C3_empty_result_set {Image : Type} (decode : List Nat → Option Image)
    (m : YoloModel Image) (data : List Nat) (image : Image)
    (hdec : decode data = some image)
    (hh : (m.xyxy image).head? = some []) :
    detect_objects decode m data = some { detections := [] } := by
  rw [detect_objects_eq hdec hh]
  rfl

/-- Claim C4: assuming the external detector's contract (its raw detections
have confidence in [0,1] and ordered box coordinates), every element of the
returned `detections` array has confidence in [0,1] and a 4-element bbox
with `x_min ≤ x_max` and `y_min ≤ y_max`; the handler copies these values
unchanged. -/
theorem C4_confidence_bbox_ranges {Image : Type} (decode : List Nat → Option Image)
    (m : YoloModel Image) (data : List Nat) (resp : Response)
    (hm : ∀ img, ∀ rs ∈ m.xyxy img, ∀ r ∈ rs, RawValid r)
    (h : detect_objects decode m data = some resp) :
    ∀ d ∈ resp.detections,
      (0 ≤ d.confidence ∧ d.confidence ≤ 1) ∧
      ∃ a b c e, d.bbox = [a, b, c, e] ∧ a ≤ c ∧ b ≤ e := by
  intro d hd
  obtain ⟨image, raws, hdec, hh, hmd⟩ := detect_objects_some h
  obtain ⟨r, hrmem, hr⟩ := mapDetections_mem_rev hmd hd
  have hval := hm image raws (head?_mem hh) r hrmem
  obtain ⟨h0, h1, hx, hy⟩ := hval
  obtain ⟨hn, hrec⟩ := mapDetection_eq_some hr
  rw [hrec]
  exact ⟨⟨h0, h1⟩, r.x_min, r.y_min, r.x_max, r.y_max, rfl, hx, hy⟩

/-- Claim C5: an upload whose bytes do not decode as an image makes the
handler fail with the uncaught decoding error (no success response with a
`detections` array is ever produced). -/
theorem C5_undecodable_fails {Image : Type} (decode : List Nat → Option Image)
    (m : YoloModel Image) (data : List Nat)
    (hdec : decode data = none) :
    detect_objects decode m data = none := by
  unfold detect_objects
  rw [hdec]

/-- Claim C6: the handler introduces no nondeterminism: whenever the
decoder and the model handle produce equal outputs, the two calls return
equal responses. -/
theorem C6_deterministic {Image : Type} (decode₁ decode₂ : List Nat → Option Image)
    (m₁ m₂ : YoloModel Image) (data : List Nat)
    (hdec : decode₁ data = decode₂ data)
    (hx : ∀ img, m₁.xyxy img = m₂.xyxy img)
    (hn : ∀ k, m₁.names k = m₂.names k) :
    detect_objects decode₁ m₁ data = detect_objects decode₂ m₂ data := by
  unfold detect_objects
  rw [hdec]
  cases decode₂ data with
  | none => rfl
  | some image =>
      simp only [hx image]
      cases (m₂.xyxy image).head? with
      | none => rfl
      | some raws => simp only [mapDetections_congr hn raws]

/-- Claim C7: each request's response is a function of its own uploaded
bytes and the shared read-only model only: serving any sequence of
requests yields, at every position, exactly the handler's output on that
position's request computed from the initial model handle, with no state
carried between requests. -/
theorem C7_no_cross_request_state {Image : Type} (decode : List Nat → Option Image)
    (st : ProcState Image) (reqs : List (List Nat)) :
    (serve decode st reqs).2 =
      reqs.map (fun r => detect_objects decode st.model r) :=
  serve_snd decode st reqs

/-- Claim C8: the model handle loaded at startup is only read: after
serving any sequence of requests the process's model handle is still the
startup one, and a single request-handling invocation leaves it
unchanged. -/
theorem C8_model_read_only {Image : Type} (decode : List Nat → Option Image)
    (m : YoloModel Image) (disk : List (String × List Nat))
    (reqs : List (List Nat)) :
    (serve decode { model := m, disk := disk } reqs).1.model = m ∧
    ∀ (st : ProcState Image) (r : List Nat),
      (handle_request decode st r).1.model = st.model := by
  constructor
  · rw [serve_fst]
  · intro st r
    rfl

/-- Claim C9: handling requests has no side effects beyond the responses:
serving any sequence of requests leaves the whole process state (model
handle and external store) unchanged, and the responses are exactly the
pure handler outputs. -/
theorem C9_frame {Image : Type} (decode : List Nat → Option Image)
    (st : ProcState Image) (reqs : List (List Nat)) :
    (serve decode st reqs).1 = st ∧
    (serve decode st reqs).1.disk = st.disk ∧
    (serve decode st reqs).2 =
      reqs.map (fun r => detect_objects decode st.model r) := by
  refine ⟨serve_fst decode st reqs, ?_, serve_snd decode st reqs⟩
  rw [serve_fst]

/-- Claim C10: the class-name lookup is unguarded: if some raw detection's
converted class index is not a key of the model's table, the handler fails
with the uncaught lookup error and returns no response at all. -/
theorem C10_unguarded_lookup {Image : Type} (decode : List Nat → Option Image)
    (m : YoloModel Image) (data : List Nat) (image : Image)
    (raws : List RawDetection) (r : RawDetection)
    (hdec : decode data = some image)
    (hh : (m.xyxy image).head? = some raws)
    (hmem : r ∈ raws)
    (hn : m.names (pyInt r.class_id) = none) :
    detect_objects decode m data = none := by
  rw [detect_objects_eq hdec hh]
  have hone : mapDetection m r = none := by
    unfold mapDetection
    rw [hn]
  rw [mapDetections_none_of_mem hmem hone]
  rfl

/-! ### Witnesses: the hypotheses of each claim theorem hold at a concrete
input, and the conclusion is evaluated there. -/

/-- Witness for C1 at a concrete decoder, model and upload. -/
theorem C1_record_shape_witness :
    detect_objects exDecode exModel [5] = some { detections := [exDet] } ∧
    (∃ image raws, exDecode [5] = some image ∧
      (exModel.xyxy image).head? = some raws ∧
      (Response.detections { detections := [exDet] }).length = raws.length ∧
      ∀ i (hi : i < raws.length)
        (hi' : i < (Response.detections { detections := [exDet] }).length),
        ∃ nm, exModel.names (pyInt (raws.get ⟨i, hi⟩).class_id) = some nm ∧
          (Response.detections { detections := [exDet] }).get ⟨i, hi'⟩ =
            { class_id := pyInt (raws.get ⟨i, hi⟩).class_id
              class_name := nm
              confidence := (raws.get ⟨i, hi⟩).confidence
              bbox := [(raws.get ⟨i, hi⟩).x_min, (raws.get ⟨i, hi⟩).y_min,
                       (raws.get ⟨i, hi⟩).x_max, (raws.get ⟨i, hi⟩).y_max] }) :=
  ⟨by decide,
    C1_record_shape exDecode exModel [5] { detections := [exDet] } (by decide)⟩

/-- Witness for C2 at a concrete decoder, model and upload. -/
theorem C2_one_to_one_in_order_witness :
    detect_objects exDecode exModel [5] = some { detections := [exDet] } ∧
    (∃ image raws, exDecode [5] = some image ∧
      (exModel.xyxy image).head? = some raws ∧
      (Response.detections { detections := [exDet] }).length = raws.length ∧
      ∀ i (hi : i < raws.length)
        (hi' : i < (Response.detections { detections := [exDet] }).length),
        mapDetection exModel (raws.get ⟨i, hi⟩) =
          some ((Response.detections { detections := [exDet] }).get ⟨i, hi'⟩)) :=
  ⟨by decide,
    C2_one_to_one_in_order exDecode exModel [5] { detections := [exDet] }
      (by decide)⟩

/-- Witness for C3: a model whose first result set is empty. -/
theorem C3_empty_result_set_witness :
    exDecode [5] = some 1 ∧ (exModelEmpty.xyxy 1).head? = some [] ∧
    detect_objects exDecode exModelEmpty [5] = some { detections := [] } :=
  ⟨by decide, by decide,
    C3_empty_result_set exDecode exModelEmpty [5] 1 (by decide) (by decide)⟩

/-- Witness for C4: the concrete model meets the detector contract and the
returned records satisfy the ranges. -/
theorem C4_confidence_bbox_ranges_witness :
    (∀ img, ∀ rs ∈ exModel.xyxy img, ∀ r ∈ rs, RawValid r) ∧
    detect_objects exDecode exModel [5] = some { detections := [exDet] } ∧
    ∀ d ∈ Response.detections { detections := [exDet] },
      (0 ≤ d.confidence ∧ d.confidence ≤ 1) ∧
      ∃ a b c e, d.bbox = [a, b, c, e] ∧ a ≤ c ∧ b ≤ e := by
  have hm : ∀ img, ∀ rs ∈ exModel.xyxy img, ∀ r ∈ rs, RawValid r := by
    intro img rs hrs r hr
    simp only [exModel, List.mem_singleton] at hrs
    subst hrs
    simp only [List.mem_singleton] at hr
    subst hr
    decide
  exact ⟨hm, by decide,
    C4_confidence_bbox_ranges exDecode exModel [5] { detections := [exDet] }
      hm (by decide)⟩

/-- Witness for C5: the empty upload is undecodable and the handler
fails. -/
theorem C5_undecodable_fails_witness :
    exDecode [] = none ∧ detect_objects exDecode exModel [] = none :=
  ⟨by decide, C5_undecodable_fails exDecode exModel [] (by decide)⟩

/-- Witness for C6: two different decoders agreeing on the upload give the
same response. -/
theorem C6_deterministic_witness :
    exDecode [5] = exDecode2 [5] ∧
    detect_objects exDecode exModel [5] = detect_objects exDecode2 exModel [5] :=
  ⟨by decide,
    C6_deterministic exDecode exDecode2 exModel exModel [5] (by decide)
      (fun _ => rfl) (fun _ => rfl)⟩

/-- Witness for C10: a raw detection with class index 99, which is not a
key of the table, makes the handler fail. -/
theorem C10_unguarded_lookup_witness :
    exDecode [5] = some 1 ∧
    (exModelBad.xyxy 1).head? = some [exRawBad] ∧
    exRawBad ∈ [exRawBad] ∧
    exModelBad.names (pyInt exRawBad.class_id) = none ∧
    detect_objects exDecode exModelBad [5] = none :=
  ⟨by decide, by decide, by decide, by decide,
    C10_unguarded_lookup exDecode exModelBad [5] 1 [exRawBad] exRawBad
      (by decide) (by decide) (by decide) (by decide)⟩
